import Mathlib

/-!
Shallow embedding of the game-state engine of `src/components/TicTacToeGame.tsx`
(alwinjosegeorge/Tic-Tac-Toe).  The TypeScript component keeps its whole engine
in a single React component; the pure state transitions are extracted here as
Lean functions.  JavaScript `Math.floor(Math.random() * n)` draws are modelled
by an extra natural-number parameter `r`, reduced modulo the length of the list
being sampled.
-/

namespace TicTacToe

/-- The two marks.  TS: the non-null values of `type Player = 'X' | 'O' | null`. -/
inductive Mark where
  | X
  | O
deriving DecidableEq, Repr

/-- TS `type Player = 'X' | 'O' | null`: a nullable mark, used both for cells
of the board and for the (nullable) current player / winner fields. -/
abbrev Player := Option Mark

/-- TS `type GameStatus = 'playing' | 'won' | 'draw'`. -/
inductive GameStatus where
  | playing
  | won
  | draw
deriving DecidableEq, Repr

/-- TS `type GameMode = 'pvp' | 'pve'` (player vs player, player vs AI). -/
inductive GameMode where
  | pvp
  | pve
deriving DecidableEq, Repr

/-- The `scores` record `{ X: number; O: number; draws: number }`. -/
structure Scores where
  X : Nat
  O : Nat
  draws : Nat
deriving DecidableEq, Repr

/-- TS `interface GameState`. -/
structure GameState where
  board : List Player
  currentPlayer : Player
  status : GameStatus
  winner : Player
  winningCells : List Nat
  scores : Scores
  mode : GameMode
deriving DecidableEq, Repr

/-- TS `INITIAL_STATE`: empty 9-cell board, X to move, playing, no winner,
zero scores, and mode `pve` (the code's comment: "Default to Player vs AI"). -/
def INITIAL_STATE : GameState :=
  { board := List.replicate 9 none
    currentPlayer := some Mark.X
    status := GameStatus.playing
    winner := none
    winningCells := []
    scores := { X := 0, O := 0, draws := 0 }
    mode := GameMode.pve }

/-- TS `WINNING_COMBINATIONS`: 3 rows, 3 columns, 2 diagonals, in that order. -/
def WINNING_COMBINATIONS : List (Nat × Nat × Nat) :=
  [(0, 1, 2), (3, 4, 5), (6, 7, 8),
   (0, 3, 6), (1, 4, 7), (2, 5, 8),
   (0, 4, 8), (2, 4, 6)]

/-- The body of `checkWinner`'s `for` loop: scan the combinations in order;
`board[a] && board[a] === board[b] && board[a] === board[c]` returns the first
matching triple.  Out-of-range reads (`undefined` in JS) are falsy, matching
`List.getD _ none`. -/
def checkWinnerAux (board : List Player) :
    List (Nat × Nat × Nat) → Player × List Nat
  | [] => (none, [])
  | t :: rest =>
    if (board.getD t.1 none).isSome ∧
        board.getD t.1 none = board.getD t.2.1 none ∧
        board.getD t.1 none = board.getD t.2.2 none then
      (board.getD t.1 none, [t.1, t.2.1, t.2.2])
    else checkWinnerAux board rest

/-- TS `checkWinner`: returns `{ winner, winningCells }` for the first winning
combination, or `(null, [])`. -/
def checkWinner (board : List Player) : Player × List Nat :=
  checkWinnerAux board WINNING_COMBINATIONS

/-- TS `newScores[winner]++` where `winner` is a non-null mark. -/
def bumpScore (s : Scores) : Mark → Scores
  | Mark.X => { s with X := s.X + 1 }
  | Mark.O => { s with O := s.O + 1 }

/-- TS `makeMove(index, player)`: the state-updater passed to `setGameState`.
Rejects (returns the state unchanged) when the target cell is truthy
(occupied) or the status is not `'playing'`; otherwise writes the mark, runs
`checkWinner`, and takes the won / draw / continue branch. -/
def makeMove (prev : GameState) (index : Nat) (player : Player) : GameState :=
  if (prev.board.getD index none).isSome ∨ prev.status ≠ GameStatus.playing then
    prev
  else
    let newBoard := prev.board.set index player
    match checkWinner newBoard with
    | (some winner, winningCells) =>
      { prev with
        board := newBoard
        status := GameStatus.won
        winner := some winner
        winningCells := winningCells
        scores := bumpScore prev.scores winner }
    | (none, _) =>
      if newBoard.all (fun cell => cell.isSome) then
        { prev with
          board := newBoard
          status := GameStatus.draw
          scores := { prev.scores with draws := prev.scores.draws + 1 } }
      else
        { prev with
          board := newBoard
          currentPlayer :=
            some (if player = some Mark.X then Mark.O else Mark.X) }

/-- TS `board.map((cell, index) => cell === null ? index : null).filter(val =>
val !== null)`: the indices of the empty cells, in increasing order.  This
expression appears verbatim in `getBestMove` and in both timeout branches. -/
def availableMoves (board : List Player) : List Nat :=
  board.enum.filterMap (fun p => if p.2 = none then some p.1 else none)

/-- The test of both `for` loops of `getBestMove`: does placing mark `m` at
index `i` make `checkWinner` report `m` as the winner? -/
def winningMoveAt (board : List Player) (m : Mark) (i : Nat) : Bool :=
  decide ((checkWinner (board.set i (some m))).1 = some m)

/-- TS `[0, 2, 6, 8].filter(i => board[i] === null)`: the empty corners. -/
def emptyCorners (board : List Player) : List Nat :=
  [0, 2, 6, 8].filter (fun i => board.get? i = some none)

/-- TS `getBestMove(board)`: win-now, else block, else center, else random
empty corner, else random available move.  `r` models the `Math.random()`
draw of whichever random branch is reached. -/
def getBestMove (r : Nat) (board : List Player) : Nat :=
  match (availableMoves board).find? (winningMoveAt board Mark.O) with
  | some move => move
  | none =>
    match (availableMoves board).find? (winningMoveAt board Mark.X) with
    | some move => move
    | none =>
      if board.get? 4 = some none then 4
      else
        if (emptyCorners board).length > 0 then
          (emptyCorners board).getD (r % (emptyCorners board).length) 0
        else (availableMoves board).getD (r % (availableMoves board).length) 0

/-- The `setInterval` callback of the timer `useEffect` (lines 195-225): one
tick maps the pair (game state, `timeLeft`) to its successor.  When
`timeLeft <= 1` the timeout branch fires — in `pve` with X to move the AI
gets a free random move as `'O'`; in `pvp` the *other* player gets a free
random move — and the returned countdown is reset to 10; otherwise the
countdown just decrements.  (The surrounding effect only installs the
interval while the status is `'playing'` and the timer is active, so theorems
about a firing tick hypothesise `status = playing`.)  `r` models the
`Math.random()` draw. -/
def timerTick (gs : GameState) (timeLeft : Nat) (r : Nat) : GameState × Nat :=
  if timeLeft ≤ 1 then
    (if gs.mode = GameMode.pve ∧ gs.currentPlayer = some Mark.X then
      if (availableMoves gs.board).length > 0 then
        makeMove gs
          ((availableMoves gs.board).getD
            (r % (availableMoves gs.board).length) 0)
          (some Mark.O)
      else gs
    else if gs.mode = GameMode.pvp then
      if (availableMoves gs.board).length > 0 then
        makeMove gs
          ((availableMoves gs.board).getD
            (r % (availableMoves gs.board).length) 0)
          (some (if gs.currentPlayer = some Mark.X then Mark.O else Mark.X))
      else gs
    else gs, 10)
  else (gs, timeLeft - 1)

/-- TS `resetGame`: back to `INITIAL_STATE` but keeping scores and mode. -/
def resetGame (gs : GameState) : GameState :=
  { INITIAL_STATE with scores := gs.scores, mode := gs.mode }

/-- TS `resetScores`: back to `INITIAL_STATE` keeping only the mode. -/
def resetScores (gs : GameState) : GameState :=
  { INITIAL_STATE with mode := gs.mode }

/-- TS `changeGameMode(mode)`: reinitialises the round with the new mode,
keeping the existing scores.  The function itself has no guard. -/
def changeGameMode (gs : GameState) (mode : GameMode) : GameState :=
  { INITIAL_STATE with scores := gs.scores, mode := mode }

/-- The `disabled` condition of both mode buttons (lines 303 and 311):
`gameState.status === 'playing' && gameState.board.some(cell => cell !== null)`. -/
def modeButtonDisabled (gs : GameState) : Bool :=
  decide (gs.status = GameStatus.playing) && gs.board.any (fun cell => cell.isSome)

/-- A mode-change request as wired in the UI: the button invokes
`changeGameMode` only when it is not disabled, so a request on a disabled
button leaves the state unchanged. -/
def requestModeChange (gs : GameState) (mode : GameMode) : GameState :=
  if modeButtonDisabled gs then gs else changeGameMode gs mode

/-- Fold a list of (index, player) moves through `makeMove`. -/
def applyMoves (gs : GameState) (moves : List (Nat × Player)) : GameState :=
  moves.foldl (fun s m => makeMove s m.1 m.2) gs

/-- Is the triple `t` monochromatic with mark `m` on `board`?  (The property
`checkWinner`'s loop tests for one combination.) -/
def monoTriple (board : List Player) (t : Nat × Nat × Nat) (m : Mark) : Bool :=
  decide (board.getD t.1 none = some m) &&
  decide (board.getD t.2.1 none = some m) &&
  decide (board.getD t.2.2 none = some m)

/-- Does `board` contain an all-`m` winning triple? -/
def hasWin (board : List Player) (m : Mark) : Bool :=
  WINNING_COMBINATIONS.any (fun t => monoTriple board t m)

/-- The states reachable from `INITIAL_STATE` by the engine's transitions:
`makeMove` with any index and attribution (covering cell clicks, the AI's
`getBestMove` move, and both timeout-forced moves), a raw timer tick, and the
three controller actions. -/
inductive Reachable : GameState → Prop where
  | init : Reachable INITIAL_STATE
  | move (s : GameState) (i : Nat) (p : Player) :
      Reachable s → Reachable (makeMove s i p)
  | tick (s : GameState) (t r : Nat) :
      Reachable s → Reachable (timerTick s t r).1
  | reset (s : GameState) : Reachable s → Reachable (resetGame s)
  | rescore (s : GameState) : Reachable s → Reachable (resetScores s)
  | remode (s : GameState) (m : GameMode) :
      Reachable s → Reachable (changeGameMode s m)

end TicTacToe

namespace TicTacToe

/-! ### Helper lemmas about lists and the board -/

/-- Membership in `availableMoves` is exactly "the cell at that index exists
and is empty". -/
theorem mem_availableMoves {board : List Player} {i : Nat} :
    i ∈ availableMoves board ↔ board.get? i = some none := by
  simp only [availableMoves, List.mem_filterMap, List.mem_enum_iff_getElem?,
    List.get?_eq_getElem?]
  constructor
  · rintro ⟨⟨j, c⟩, hmem, hf⟩
    by_cases hc : c = none
    · subst hc
      simp only [if_pos, Option.some.injEq] at hf
      subst hf
      exact hmem
    · simp [hc] at hf
  · intro h
    exact ⟨(i, none), h, by simp⟩

/-- Sampling a nonempty list of indices at `r % length` yields a member. -/
theorem getD_mod_mem (l : List Nat) (r : Nat) (h : l ≠ []) :
    l.getD (r % l.length) 0 ∈ l := by
  have hlen : 0 < l.length := List.length_pos.mpr h
  have hlt : r % l.length < l.length := Nat.mod_lt _ hlen
  rw [List.getD_eq_getElem?_getD, List.getElem?_eq_getElem hlt]
  exact List.getElem_mem hlt

/-- Every member of a list of indices is produced by some random draw. -/
theorem exists_getD_mod (l : List Nat) {i : Nat} (h : i ∈ l) :
    ∃ r, l.getD (r % l.length) 0 = i := by
  obtain ⟨n, hn, he⟩ := List.mem_iff_getElem.mp h
  refine ⟨n, ?_⟩
  rw [Nat.mod_eq_of_lt hn, List.getD_eq_getElem?_getD, List.getElem?_eq_getElem hn]
  simpa using he

/-- Writing a value back into the position that already holds it changes
nothing. -/
theorem set_get?_self {α : Type} :
    ∀ {l : List α} {i : Nat} {a : α}, l.get? i = some a → l.set i a = l
  | [], i, _, h => by simp at h
  | x :: xs, 0, a, h => by
    simp only [List.get?_cons_zero, Option.some.injEq] at h
    simp [h]
  | x :: xs, i + 1, a, h => by
    simp only [List.get?_cons_succ] at h
    simp only [List.set_cons_succ, List.cons.injEq, true_and]
    exact set_get?_self h

/-- `getD` at a position other than the one being set is unchanged. -/
theorem getD_set_ne {α : Type} {l : List α} {i j : Nat} (v d : α) (h : i ≠ j) :
    (l.set i v).getD j d = l.getD j d := by
  rw [List.getD_eq_getElem?_getD, List.getD_eq_getElem?_getD,
    List.getElem?_set_ne h]

/-- `getD` at the position being set returns the new value (in range). -/
theorem getD_set_self {α : Type} {l : List α} {i : Nat} (v d : α)
    (h : i < l.length) : (l.set i v).getD i d = v := by
  rw [List.getD_eq_getElem?_getD, List.getElem?_set_eq_of_lt _ h]
  rfl

/-- An empty `getD` read together with a range bound gives a `get?` fact. -/
theorem get?_of_getD_none {board : List Player} {i : Nat}
    (h : board.getD i none = none) (hlt : i < board.length) :
    board.get? i = some none := by
  rw [List.getD_eq_getElem?_getD, List.getElem?_eq_getElem hlt] at h
  rw [List.get?_eq_getElem?, List.getElem?_eq_getElem hlt]
  simpa using h

/-- An occupied-or-empty `getD` read of an available move: members of
`availableMoves` read back as empty with `getD`. -/
theorem getD_none_of_mem_availableMoves {board : List Player} {i : Nat}
    (h : i ∈ availableMoves board) : board.getD i none = none := by
  have h2 := mem_availableMoves.mp h
  rw [List.get?_eq_getElem?] at h2
  rw [List.getD_eq_getElem?_getD, h2]
  rfl

/-- A non-rejected `makeMove` always installs the written board, whatever
branch (won / draw / continue) it then takes. -/
theorem makeMove_board {gs : GameState} {i : Nat} {p : Player}
    (hst : gs.status = GameStatus.playing)
    (hemp : gs.board.getD i none = none) :
    (makeMove gs i p).board = gs.board.set i p := by
  unfold makeMove
  have hneg : ¬((gs.board.getD i none).isSome = true ∨
      gs.status ≠ GameStatus.playing) := by
    rw [hemp, hst]; simp
  rw [if_neg hneg]
  rcases hq : checkWinner (gs.board.set i p) with ⟨w, cells⟩
  cases w
  · simp only [hq]
    by_cases hall : ((gs.board.set i p).all fun cell => cell.isSome) = true
    · rw [if_pos hall]
    · rw [if_neg hall]
  · simp only [hq]

/-- `makeMove` either leaves `currentPlayer` alone (rejection, win, draw) or
flips it away from the mark just written. -/
theorem makeMove_currentPlayer (gs : GameState) (i : Nat) (p : Player) :
    (makeMove gs i p).currentPlayer = gs.currentPlayer ∨
    (makeMove gs i p).currentPlayer =
      some (if p = some Mark.X then Mark.O else Mark.X) := by
  unfold makeMove
  by_cases hrej : (gs.board.getD i none).isSome = true ∨
      gs.status ≠ GameStatus.playing
  · rw [if_pos hrej]; exact Or.inl rfl
  · rw [if_neg hrej]
    rcases hq : checkWinner (gs.board.set i p) with ⟨w, cells⟩
    cases w
    · simp only [hq]
      by_cases hall : ((gs.board.set i p).all fun cell => cell.isSome) = true
      · rw [if_pos hall]; exact Or.inl rfl
      · rw [if_neg hall]; exact Or.inr rfl
    · simp only [hq]
      exact Or.inl (by simp)

/-- The spec's example game stopped one move before the win:
X@0, O@4, X@1, O@8 from the initial state. -/
def exampleGamePrefix : GameState :=
  applyMoves INITIAL_STATE
    [(0, some Mark.X), (4, some Mark.O), (1, some Mark.X), (8, some Mark.O)]

/-- The spec's draw example one move before completion: the board
X,O,X / X,O,O / O,X,_ with X to move at 8. -/
def drawGamePrefix : GameState :=
  applyMoves INITIAL_STATE
    [(0, some Mark.X), (1, some Mark.O), (2, some Mark.X), (4, some Mark.O),
     (3, some Mark.X), (5, some Mark.O), (7, some Mark.X), (6, some Mark.O)]

/-! ### Claim theorems -/

/-- C3: for every state, index and player, if the cell at that index is
occupied or the status is not Playing, then `makeMove` returns a state
identical to the input state. -/
theorem c3_rejected_move_identity (gs : GameState) (i : Nat) (p : Player)
    (h : (gs.board.getD i none).isSome = true ∨
      gs.status ≠ GameStatus.playing) :
    makeMove gs i p = gs := by
  unfold makeMove
  rw [if_pos h]

/-- Witness for C3: a move on the occupied cell 0 after X@0 is a no-op. -/
theorem c3_rejected_move_identity_witness :
    makeMove (applyMoves INITIAL_STATE [(0, some Mark.X)]) 0 (some Mark.O) =
      applyMoves INITIAL_STATE [(0, some Mark.X)] :=
  c3_rejected_move_identity (applyMoves INITIAL_STATE [(0, some Mark.X)]) 0
    (some Mark.O) (Or.inl (by decide))

/-- C4: a move that the detector reports as winning sets status Won, the
winner, the winning line, and bumps exactly the winner's score; and the
spec's example game X@0, O@4, X@1, O@8, X@2 ends won by X on line [0,1,2]
with `wins_X` incremented to 1. -/
theorem c4_winning_move :
    (∀ (gs : GameState) (i : Nat) (m w : Mark) (line : List Nat),
      gs.status = GameStatus.playing →
      gs.board.getD i none = none →
      checkWinner (gs.board.set i (some m)) = (some w, line) →
      makeMove gs i (some m) =
        { gs with
          board := gs.board.set i (some m)
          status := GameStatus.won
          winner := some w
          winningCells := line
          scores := bumpScore gs.scores w })
    ∧ applyMoves INITIAL_STATE
        [(0, some Mark.X), (4, some Mark.O), (1, some Mark.X),
         (8, some Mark.O), (2, some Mark.X)] =
      { board := [some Mark.X, some Mark.X, some Mark.X, none, some Mark.O,
                  none, none, none, some Mark.O]
        currentPlayer := some Mark.X
        status := GameStatus.won
        winner := some Mark.X
        winningCells := [0, 1, 2]
        scores := { X := 1, O := 0, draws := 0 }
        mode := GameMode.pve } := by
  constructor
  · intro gs i m w line hst hemp hwin
    unfold makeMove
    have hneg : ¬((gs.board.getD i none).isSome = true ∨
        gs.status ≠ GameStatus.playing) := by
      rw [hemp, hst]; simp
    rw [if_neg hneg]
    simp only [hwin]
  · decide

/-- Witness for C4: the final winning move X@2 of the example game. -/
theorem c4_winning_move_witness :
    makeMove exampleGamePrefix 2 (some Mark.X) =
      { exampleGamePrefix with
        board := exampleGamePrefix.board.set 2 (some Mark.X)
        status := GameStatus.won
        winner := some Mark.X
        winningCells := [0, 1, 2]
        scores := bumpScore exampleGamePrefix.scores Mark.X } :=
  c4_winning_move.1 exampleGamePrefix 2 Mark.X Mark.X [0, 1, 2]
    (by decide) (by decide) (by decide)

/-- C5: a move that completes no triple either fills the board — status Draw
and the draw count bumped — or keeps status Playing and flips the current
player to the other mark. -/
theorem c5_non_winning_move (gs : GameState) (i : Nat) (m : Mark)
    (hst : gs.status = GameStatus.playing)
    (hemp : gs.board.getD i none = none)
    (hwin : (checkWinner (gs.board.set i (some m))).1 = none) :
    (((gs.board.set i (some m)).all fun cell => cell.isSome) = true →
      makeMove gs i (some m) =
        { gs with
          board := gs.board.set i (some m)
          status := GameStatus.draw
          scores := { gs.scores with draws := gs.scores.draws + 1 } })
    ∧ (((gs.board.set i (some m)).all fun cell => cell.isSome) = false →
      makeMove gs i (some m) =
        { gs with
          board := gs.board.set i (some m)
          currentPlayer :=
            some (if (some m : Player) = some Mark.X then Mark.O
              else Mark.X) }) := by
  have hneg : ¬((gs.board.getD i none).isSome = true ∨
      gs.status ≠ GameStatus.playing) := by
    rw [hemp, hst]; simp
  rcases hp : checkWinner (gs.board.set i (some m)) with ⟨w, cells⟩
  rw [hp] at hwin
  have hw : w = none := hwin
  subst hw
  constructor
  · intro hall
    unfold makeMove
    rw [if_neg hneg]
    simp only [hp]
    rw [if_pos hall]
  · intro hall
    unfold makeMove
    rw [if_neg hneg]
    simp only [hp]
    rw [if_neg (by simp [hall])]

/-- Witness for C5: the draw-completing move X@8 of the spec's draw example. -/
theorem c5_non_winning_move_witness :
    makeMove drawGamePrefix 8 (some Mark.X) =
      { drawGamePrefix with
        board := drawGamePrefix.board.set 8 (some Mark.X)
        status := GameStatus.draw
        scores := { drawGamePrefix.scores with
          draws := drawGamePrefix.scores.draws + 1 } } :=
  (c5_non_winning_move drawGamePrefix 8 Mark.X (by decide) (by decide)
    (by decide)).1 (by decide)

/-- C8: the scoreboard is preserved exactly by the new-round reset and by a
mode change, zeroed by the explicit score reset, and never decreased by any
move, so no other operation can zero a nonzero scoreboard. -/
theorem c8_scoreboard_frame (gs : GameState) (m : GameMode) (i : Nat)
    (p : Player) :
    (resetGame gs).scores = gs.scores
    ∧ (changeGameMode gs m).scores = gs.scores
    ∧ (resetScores gs).scores = { X := 0, O := 0, draws := 0 }
    ∧ gs.scores.X ≤ (makeMove gs i p).scores.X
    ∧ gs.scores.O ≤ (makeMove gs i p).scores.O
    ∧ gs.scores.draws ≤ (makeMove gs i p).scores.draws := by
  refine ⟨rfl, rfl, rfl, ?_, ?_, ?_⟩ <;>
  · unfold makeMove
    by_cases hrej : (gs.board.getD i none).isSome = true ∨
        gs.status ≠ GameStatus.playing
    · rw [if_pos hrej]
    · rw [if_neg hrej]
      rcases hq : checkWinner (gs.board.set i p) with ⟨w, cells⟩
      cases w with
      | none =>
        simp only [hq]
        by_cases hall : ((gs.board.set i p).all fun cell => cell.isSome) = true
        · rw [if_pos hall] <;> simp
        · rw [if_neg hall]
      | some w =>
        simp only [hq]
        cases w <;> simp [bumpScore]

/-- C1, counterexample: from the initial state (PlayerVsAI, X to move,
playing, empty board) a firing tick plays mark O (the AI's free move), not
mark X on the human's behalf as the claim states: no X appears on the
board. -/
theorem c1_counterexample :
    (timerTick INITIAL_STATE 1 0).2 = 10
    ∧ (timerTick INITIAL_STATE 1 0).1.board.count (some Mark.X) = 0
    ∧ (timerTick INITIAL_STATE 1 0).1.board.count (some Mark.O) = 1 := by
  decide

/-- C1, amended: in PlayerVsAI mode, when the human's countdown expires while
the board has an empty cell and the status is Playing, the engine plays a
uniformly random empty cell with mark O (the AI gets the free move), and the
timer resets to 10; every empty cell is a possible target. -/
theorem c1_pve_timeout_plays_O (gs : GameState) (t r : Nat)
    (hmode : gs.mode = GameMode.pve)
    (hcur : gs.currentPlayer = some Mark.X)
    (hst : gs.status = GameStatus.playing)
    (ht : t ≤ 1)
    (hav : availableMoves gs.board ≠ []) :
    timerTick gs t r =
      (makeMove gs
        ((availableMoves gs.board).getD
          (r % (availableMoves gs.board).length) 0) (some Mark.O), 10)
    ∧ (availableMoves gs.board).getD
        (r % (availableMoves gs.board).length) 0 ∈ availableMoves gs.board
    ∧ (timerTick gs t r).1.board =
        gs.board.set
          ((availableMoves gs.board).getD
            (r % (availableMoves gs.board).length) 0) (some Mark.O)
    ∧ ∀ j ∈ availableMoves gs.board, ∃ r2,
        (timerTick gs t r2).1.board = gs.board.set j (some Mark.O) := by
  have hlen : 0 < (availableMoves gs.board).length := List.length_pos.mpr hav
  have htick : ∀ r2 : Nat, timerTick gs t r2 =
      (makeMove gs
        ((availableMoves gs.board).getD
          (r2 % (availableMoves gs.board).length) 0) (some Mark.O), 10) := by
    intro r2
    unfold timerTick
    rw [if_pos ht, if_pos ⟨hmode, hcur⟩, if_pos hlen]
  refine ⟨htick r, getD_mod_mem _ r hav, ?_, ?_⟩
  · rw [htick r]
    exact makeMove_board hst
      (getD_none_of_mem_availableMoves (getD_mod_mem _ r hav))
  · intro j hj
    obtain ⟨r2, hr2⟩ := exists_getD_mod _ hj
    refine ⟨r2, ?_⟩
    rw [htick r2, hr2]
    exact makeMove_board hst (getD_none_of_mem_availableMoves hj)

/-- Witness for the amended C1 at the initial state: the tick at 1 second
left makes the O move at cell 0 and resets the countdown. -/
theorem c1_pve_timeout_plays_O_witness :
    timerTick INITIAL_STATE 1 0 =
      (makeMove INITIAL_STATE 0 (some Mark.O), 10) :=
  (c1_pve_timeout_plays_O INITIAL_STATE 1 0 rfl rfl rfl (by decide)
    (by decide)).1

/-- C2, counterexample: after the finished example round (status Won, five
moves on the board, so moves were played in the current round) a mode-change
request is *not* rejected: the state changes. -/
theorem c2_counterexample :
    ((applyMoves INITIAL_STATE
        [(0, some Mark.X), (4, some Mark.O), (1, some Mark.X),
         (8, some Mark.O), (2, some Mark.X)]).board.any
      fun c => c.isSome) = true
    ∧ requestModeChange
        (applyMoves INITIAL_STATE
          [(0, some Mark.X), (4, some Mark.O), (1, some Mark.X),
           (8, some Mark.O), (2, some Mark.X)]) GameMode.pvp ≠
      applyMoves INITIAL_STATE
        [(0, some Mark.X), (4, some Mark.O), (1, some Mark.X),
         (8, some Mark.O), (2, some Mark.X)] := by
  decide

/-- C2, amended: a mode-change request made while the status is Playing and
at least one move has been played is silently rejected (the buttons are
disabled), returning the state unchanged; whenever the buttons are enabled
(empty board, or finished round) the change takes effect, reinitialising the
round with the requested mode and the scoreboard preserved. -/
theorem c2_mode_change_guard (gs : GameState) (m : GameMode) :
    (gs.status = GameStatus.playing →
      (gs.board.any fun c => c.isSome) = true →
      requestModeChange gs m = gs)
    ∧ (modeButtonDisabled gs = false →
      requestModeChange gs m = changeGameMode gs m
      ∧ (requestModeChange gs m).mode = m
      ∧ (requestModeChange gs m).board = List.replicate 9 none
      ∧ (requestModeChange gs m).scores = gs.scores) := by
  constructor
  · intro hst hmv
    have hd : modeButtonDisabled gs = true := by
      simp [modeButtonDisabled, hst, hmv]
    unfold requestModeChange
    rw [if_pos hd]
  · intro hd
    unfold requestModeChange
    rw [if_neg (by simp [hd])]
    exact ⟨rfl, rfl, rfl, rfl⟩

/-- Witness for the amended C2: with one move played and the round still
Playing, asking for PlayerVsPlayer leaves the state untouched. -/
theorem c2_mode_change_guard_witness :
    requestModeChange (applyMoves INITIAL_STATE [(0, some Mark.X)])
      GameMode.pvp = applyMoves INITIAL_STATE [(0, some Mark.X)] :=
  (c2_mode_change_guard (applyMoves INITIAL_STATE [(0, some Mark.X)])
    GameMode.pvp).1 (by decide) (by decide)

/-- C7: in PlayerVsPlayer mode a firing tick for current player `q` plays a
uniformly random empty cell with the *other* player's mark — the written mark
differs from `q`, the board gains that one mark, every empty cell is a
possible target — and the resulting current player is `q` again. -/
theorem c7_pvp_timeout_forfeit (gs : GameState) (t r : Nat) (q : Mark)
    (hmode : gs.mode = GameMode.pvp)
    (hcur : gs.currentPlayer = some q)
    (hst : gs.status = GameStatus.playing)
    (ht : t ≤ 1)
    (hav : availableMoves gs.board ≠ []) :
    (if gs.currentPlayer = some Mark.X then Mark.O else Mark.X) ≠ q
    ∧ timerTick gs t r =
        (makeMove gs
          ((availableMoves gs.board).getD
            (r % (availableMoves gs.board).length) 0)
          (some (if gs.currentPlayer = some Mark.X then Mark.O else Mark.X)),
         10)
    ∧ (availableMoves gs.board).getD
        (r % (availableMoves gs.board).length) 0 ∈ availableMoves gs.board
    ∧ (timerTick gs t r).1.board =
        gs.board.set
          ((availableMoves gs.board).getD
            (r % (availableMoves gs.board).length) 0)
          (some (if gs.currentPlayer = some Mark.X then Mark.O else Mark.X))
    ∧ (timerTick gs t r).1.currentPlayer = gs.currentPlayer
    ∧ ∀ j ∈ availableMoves gs.board, ∃ r2,
        (timerTick gs t r2).1.board =
          gs.board.set j
            (some (if gs.currentPlayer = some Mark.X then Mark.O
              else Mark.X)) := by
  have hlen : 0 < (availableMoves gs.board).length := List.length_pos.mpr hav
  have hnotpve : ¬(gs.mode = GameMode.pve ∧ gs.currentPlayer = some Mark.X) := by
    rintro ⟨h1, _⟩
    rw [hmode] at h1
    simp at h1
  have htick : ∀ r2 : Nat, timerTick gs t r2 =
      (makeMove gs
        ((availableMoves gs.board).getD
          (r2 % (availableMoves gs.board).length) 0)
        (some (if gs.currentPlayer = some Mark.X then Mark.O else Mark.X)),
       10) := by
    intro r2
    unfold timerTick
    rw [if_pos ht, if_neg hnotpve, if_pos hmode, if_pos hlen]
  have hflip : (if gs.currentPlayer = some Mark.X then Mark.O else Mark.X)
      ≠ q := by
    cases q
    · rw [hcur]; decide
    · rw [hcur]; decide
  refine ⟨hflip, htick r, getD_mod_mem _ r hav, ?_, ?_, ?_⟩
  · rw [htick r]
    exact makeMove_board hst
      (getD_none_of_mem_availableMoves (getD_mod_mem _ r hav))
  · rw [htick r]
    rcases makeMove_currentPlayer gs
        ((availableMoves gs.board).getD
          (r % (availableMoves gs.board).length) 0)
        (some (if gs.currentPlayer = some Mark.X then Mark.O else Mark.X))
      with h | h
    · exact h
    · cases q
      · rw [h, hcur]; decide
      · rw [h, hcur]; decide
  · intro j hj
    obtain ⟨r2, hr2⟩ := exists_getD_mod _ hj
    refine ⟨r2, ?_⟩
    rw [htick r2, hr2]
    exact makeMove_board hst (getD_none_of_mem_availableMoves hj)

/-- Witness for C7: from a fresh PlayerVsPlayer round with X to move, the
firing tick plays O at cell 0 and X keeps the turn. -/
theorem c7_pvp_timeout_forfeit_witness :
    timerTick (changeGameMode INITIAL_STATE GameMode.pvp) 1 0 =
      (makeMove (changeGameMode INITIAL_STATE GameMode.pvp) 0 (some Mark.O),
       10)
    ∧ (timerTick (changeGameMode INITIAL_STATE GameMode.pvp) 1 0).1.currentPlayer
      = (changeGameMode INITIAL_STATE GameMode.pvp).currentPlayer := by
  have h := c7_pvp_timeout_forfeit (changeGameMode INITIAL_STATE GameMode.pvp)
    1 0 Mark.X rfl rfl rfl (by decide) (by decide)
  exact ⟨h.2.1, h.2.2.2.2.1⟩

/-- First-rule characterisation of `getBestMove`: an immediate O win. -/
theorem getBestMove_eq_of_findO {board : List Player} {r i : Nat}
    (h : (availableMoves board).find? (winningMoveAt board Mark.O) = some i) :
    getBestMove r board = i := by
  unfold getBestMove
  rw [h]

/-- Second-rule characterisation of `getBestMove`: block an X win. -/
theorem getBestMove_eq_of_findX {board : List Player} {r i : Nat}
    (hO : (availableMoves board).find? (winningMoveAt board Mark.O) = none)
    (hX : (availableMoves board).find? (winningMoveAt board Mark.X) = some i) :
    getBestMove r board = i := by
  unfold getBestMove
  rw [hO, hX]

/-- Third-rule characterisation of `getBestMove`: take the empty center. -/
theorem getBestMove_eq_center {board : List Player} {r : Nat}
    (hO : (availableMoves board).find? (winningMoveAt board Mark.O) = none)
    (hX : (availableMoves board).find? (winningMoveAt board Mark.X) = none)
    (h4 : board.get? 4 = some none) :
    getBestMove r board = 4 := by
  unfold getBestMove
  rw [hO, hX, if_pos h4]

/-- Fourth-rule characterisation of `getBestMove`: a random empty corner. -/
theorem getBestMove_eq_corner {board : List Player} {r : Nat}
    (hO : (availableMoves board).find? (winningMoveAt board Mark.O) = none)
    (hX : (availableMoves board).find? (winningMoveAt board Mark.X) = none)
    (h4 : ¬board.get? 4 = some none)
    (hc : emptyCorners board ≠ []) :
    getBestMove r board =
      (emptyCorners board).getD (r % (emptyCorners board).length) 0 := by
  unfold getBestMove
  rw [hO, hX, if_neg h4, if_pos (List.length_pos.mpr hc)]

/-- Fifth-rule characterisation of `getBestMove`: any random empty cell. -/
theorem getBestMove_eq_fallback {board : List Player} {r : Nat}
    (hO : (availableMoves board).find? (winningMoveAt board Mark.O) = none)
    (hX : (availableMoves board).find? (winningMoveAt board Mark.X) = none)
    (h4 : ¬board.get? 4 = some none)
    (hc : emptyCorners board = []) :
    getBestMove r board =
      (availableMoves board).getD (r % (availableMoves board).length) 0 := by
  unfold getBestMove
  rw [hO, hX, if_neg h4, if_neg (by simp [hc])]

/-- C6: on any board with an empty cell the AI selector returns an empty
index, following the win-now / block / center / corner / fallback priority
order, and on the board X,X,_,O,O,_,_,_,_ it returns the winning index 5. -/
theorem c6_getBestMove_priority :
    (∀ (board : List Player) (r : Nat), availableMoves board ≠ [] →
      getBestMove r board ∈ availableMoves board
      ∧ (∀ i, (availableMoves board).find? (winningMoveAt board Mark.O) =
            some i →
          getBestMove r board = i ∧ winningMoveAt board Mark.O i = true)
      ∧ ((availableMoves board).find? (winningMoveAt board Mark.O) = none →
          ∀ i, (availableMoves board).find? (winningMoveAt board Mark.X) =
            some i →
          getBestMove r board = i ∧ winningMoveAt board Mark.X i = true)
      ∧ ((availableMoves board).find? (winningMoveAt board Mark.O) = none →
          (availableMoves board).find? (winningMoveAt board Mark.X) = none →
          board.get? 4 = some none →
          getBestMove r board = 4)
      ∧ ((availableMoves board).find? (winningMoveAt board Mark.O) = none →
          (availableMoves board).find? (winningMoveAt board Mark.X) = none →
          ¬board.get? 4 = some none →
          emptyCorners board ≠ [] →
          getBestMove r board ∈ emptyCorners board)
      ∧ ((availableMoves board).find? (winningMoveAt board Mark.O) = none →
          (availableMoves board).find? (winningMoveAt board Mark.X) = none →
          ¬board.get? 4 = some none →
          emptyCorners board = [] →
          getBestMove r board =
            (availableMoves board).getD
              (r % (availableMoves board).length) 0))
    ∧ ∀ r, getBestMove r
        [some Mark.X, some Mark.X, none, some Mark.O, some Mark.O,
         none, none, none, none] = 5 := by
  constructor
  · intro board r hav
    refine ⟨?_, ?_, ?_, ?_, ?_, ?_⟩
    · rcases hO : (availableMoves board).find? (winningMoveAt board Mark.O)
        with _ | i
      · rcases hX : (availableMoves board).find? (winningMoveAt board Mark.X)
          with _ | i
        · by_cases h4 : board.get? 4 = some none
          · rw [getBestMove_eq_center hO hX h4]
            exact mem_availableMoves.mpr h4
          · by_cases hc : emptyCorners board = []
            · rw [getBestMove_eq_fallback hO hX h4 hc]
              exact getD_mod_mem _ _ hav
            · have hmemc : getBestMove r board ∈ emptyCorners board := by
                rw [getBestMove_eq_corner hO hX h4 hc]
                exact getD_mod_mem _ _ hc
              have h2 := (List.mem_filter.mp hmemc).2
              exact mem_availableMoves.mpr (by simpa using h2)
        · rw [getBestMove_eq_of_findX hO hX]
          exact List.mem_of_find?_eq_some hX
      · rw [getBestMove_eq_of_findO hO]
        exact List.mem_of_find?_eq_some hO
    · intro i hO
      exact ⟨getBestMove_eq_of_findO hO, List.find?_some hO⟩
    · intro hO i hX
      exact ⟨getBestMove_eq_of_findX hO hX, List.find?_some hX⟩
    · intro hO hX h4
      exact getBestMove_eq_center hO hX h4
    · intro hO hX h4 hc
      rw [getBestMove_eq_corner hO hX h4 hc]
      exact getD_mod_mem _ _ hc
    · intro hO hX h4 hc
      exact getBestMove_eq_fallback hO hX h4 hc
  · intro r
    rfl

/-- Witness for C6 on the spec's win-now board: the returned index 5 is an
available (empty) cell. -/
theorem c6_getBestMove_priority_witness :
    getBestMove 0 [some Mark.X, some Mark.X, none, some Mark.O, some Mark.O,
      none, none, none, none] ∈
      availableMoves [some Mark.X, some Mark.X, none, some Mark.O,
        some Mark.O, none, none, none, none]
    ∧ getBestMove 0 [some Mark.X, some Mark.X, none, some Mark.O, some Mark.O,
      none, none, none, none] = 5 :=
  ⟨(c6_getBestMove_priority.1 [some Mark.X, some Mark.X, none, some Mark.O,
      some Mark.O, none, none, none, none] 0 (by decide)).1,
   c6_getBestMove_priority.2 0⟩

/-! ### The mutual-exclusion invariant (C9) -/

/-- A board has no `m`-win exactly when no combination is `m`-monochromatic. -/
theorem hasWin_eq_false_iff {board : List Player} {m : Mark} :
    hasWin board m = false ↔
      ∀ t ∈ WINNING_COMBINATIONS, monoTriple board t m = false := by
  simp [hasWin, List.any_eq_false]

/-- A triple that is `w`-monochromatic after writing mark `m` at index `i`
either contains `i` (so `w = m`) or was already `w`-monochromatic. -/
theorem monoTriple_set_cases {board : List Player} {i : Nat} {m w : Mark}
    {t : Nat × Nat × Nat} (hi : i < board.length)
    (h : monoTriple (board.set i (some m)) t w = true) :
    w = m ∨ monoTriple board t w = true := by
  rcases t with ⟨a, b, c⟩
  simp only [monoTriple, Bool.and_eq_true, decide_eq_true_eq] at h ⊢
  obtain ⟨⟨ha, hb⟩, hc⟩ := h
  by_cases hia : i = a
  · subst hia
    rw [getD_set_self _ _ hi] at ha
    exact Or.inl (Option.some.inj ha).symm
  · by_cases hib : i = b
    · subst hib
      rw [getD_set_self _ _ hi] at hb
      exact Or.inl (Option.some.inj hb).symm
    · by_cases hic : i = c
      · subst hic
        rw [getD_set_self _ _ hi] at hc
        exact Or.inl (Option.some.inj hc).symm
      · rw [getD_set_ne _ _ hia] at ha
        rw [getD_set_ne _ _ hib] at hb
        rw [getD_set_ne _ _ hic] at hc
        exact Or.inr ⟨⟨ha, hb⟩, hc⟩

/-- A `w`-win present after writing mark `m` was either created by `m`
(forcing `w = m`) or already present before the write. -/
theorem hasWin_set_cases {board : List Player} {i : Nat} {m w : Mark}
    (hi : i < board.length)
    (h : hasWin (board.set i (some m)) w = true) :
    w = m ∨ hasWin board w = true := by
  rw [hasWin, List.any_eq_true] at h
  obtain ⟨t, ht, hmono⟩ := h
  rcases monoTriple_set_cases hi hmono with h1 | h1
  · exact Or.inl h1
  · exact Or.inr (by rw [hasWin, List.any_eq_true]; exact ⟨t, ht, h1⟩)

/-- If the winner scan comes back empty, no scanned combination is
monochromatic for any mark. -/
theorem checkWinnerAux_none {board : List Player} :
    ∀ {combos : List (Nat × Nat × Nat)},
      (checkWinnerAux board combos).1 = none →
      ∀ t ∈ combos, ∀ m : Mark, monoTriple board t m = false := by
  intro combos
  induction combos with
  | nil =>
    intro _ t ht
    exact absurd ht (List.not_mem_nil t)
  | cons c rest ih =>
    intro h t ht m
    rw [checkWinnerAux] at h
    by_cases hcond : (board.getD c.1 none).isSome ∧
        board.getD c.1 none = board.getD c.2.1 none ∧
        board.getD c.1 none = board.getD c.2.2 none
    · rw [if_pos hcond] at h
      have hnone : board.getD c.1 none = none := h
      rw [hnone] at hcond
      simp at hcond
    · rw [if_neg hcond] at h
      rcases List.mem_cons.mp ht with rfl | htr
      · rw [Bool.eq_false_iff]
        intro hmono
        simp only [monoTriple, Bool.and_eq_true, decide_eq_true_eq] at hmono
        obtain ⟨⟨h1, h2⟩, h3⟩ := hmono
        refine hcond ⟨?_, ?_, ?_⟩
        · rw [h1]; rfl
        · rw [h1, h2]
        · rw [h1, h3]
      · exact ih h t htr m

/-- The inductive invariant: while the status is Playing the board has no
winning triple at all, and in every case the board never holds winning
triples of both marks. -/
def Inv (s : GameState) : Prop :=
  (s.status = GameStatus.playing →
    hasWin s.board Mark.X = false ∧ hasWin s.board Mark.O = false)
  ∧ ¬(hasWin s.board Mark.X = true ∧ hasWin s.board Mark.O = true)

/-- Any state carrying an empty 9-cell board satisfies the invariant. -/
theorem Inv_of_empty_board {gs : GameState}
    (h : gs.board = List.replicate 9 none) : Inv gs := by
  refine ⟨fun _ => ?_, ?_⟩
  · rw [h]
    exact ⟨by decide, by decide⟩
  · rw [h]
    decide

/-- `makeMove` preserves the invariant. -/
theorem Inv_makeMove {gs : GameState} (hinv : Inv gs) (i : Nat) (p : Player) :
    Inv (makeMove gs i p) := by
  by_cases hrej : (gs.board.getD i none).isSome = true ∨
      gs.status ≠ GameStatus.playing
  · unfold makeMove
    rw [if_pos hrej]
    exact hinv
  · push_neg at hrej
    obtain ⟨hocc, hst⟩ := hrej
    have hemp : gs.board.getD i none = none := by
      cases ho : gs.board.getD i none with
      | none => rfl
      | some x => rw [ho] at hocc; simp at hocc
    have hXfalse : hasWin gs.board Mark.X = false := (hinv.1 hst).1
    have hOfalse : hasWin gs.board Mark.O = false := (hinv.1 hst).2
    have hbasefalse : ∀ w : Mark, hasWin gs.board w = false := by
      intro w; cases w
      · exact hXfalse
      · exact hOfalse
    have hkey : ∀ w : Mark, hasWin (gs.board.set i p) w = true →
        ∃ m : Mark, p = some m ∧ w = m := by
      intro w hw
      by_cases hlt : i < gs.board.length
      · cases p with
        | none =>
          have h9 : gs.board.get? i = some none := get?_of_getD_none hemp hlt
          rw [set_get?_self h9] at hw
          rw [hbasefalse w] at hw
          cases hw
        | some m =>
          rcases hasWin_set_cases hlt hw with h1 | h1
          · exact ⟨m, rfl, h1⟩
          · rw [hbasefalse w] at h1
            cases h1
      · rw [List.set_eq_of_length_le (Nat.le_of_not_lt hlt)] at hw
        rw [hbasefalse w] at hw
        cases hw
    have hsecond : ¬(hasWin (gs.board.set i p) Mark.X = true ∧
        hasWin (gs.board.set i p) Mark.O = true) := by
      rintro ⟨hx, ho⟩
      obtain ⟨mx, hpx, hwx⟩ := hkey _ hx
      obtain ⟨mo, hpo, hwo⟩ := hkey _ ho
      rw [hpx] at hpo
      rw [← hwx, ← hwo] at hpo
      simp at hpo
    have hneg : ¬((gs.board.getD i none).isSome = true ∨
        gs.status ≠ GameStatus.playing) := by
      rw [hemp, hst]; simp
    unfold makeMove
    rw [if_neg hneg]
    rcases hq : checkWinner (gs.board.set i p) with ⟨w0, cells⟩
    cases w0 with
    | some w =>
      simp only [hq]
      exact ⟨fun hcontra => GameStatus.noConfusion hcontra, hsecond⟩
    | none =>
      simp only [hq]
      by_cases hall : ((gs.board.set i p).all fun cell => cell.isSome) = true
      · rw [if_pos hall]
        exact ⟨fun hcontra => GameStatus.noConfusion hcontra, hsecond⟩
      · rw [if_neg hall]
        refine ⟨fun _ => ?_, hsecond⟩
        have hnone : (checkWinner (gs.board.set i p)).1 = none := by
          rw [hq]
        have hmono := checkWinnerAux_none hnone
        exact ⟨hasWin_eq_false_iff.mpr (fun t ht => hmono t ht Mark.X),
               hasWin_eq_false_iff.mpr (fun t ht => hmono t ht Mark.O)⟩

/-- A timer tick preserves the invariant: every branch is a `makeMove` or
the identity. -/
theorem Inv_timerTick {gs : GameState} (hinv : Inv gs) (t r : Nat) :
    Inv (timerTick gs t r).1 := by
  unfold timerTick
  by_cases ht : t ≤ 1
  · rw [if_pos ht]
    by_cases h1 : gs.mode = GameMode.pve ∧ gs.currentPlayer = some Mark.X
    · rw [if_pos h1]
      by_cases h2 : (availableMoves gs.board).length > 0
      · rw [if_pos h2]
        exact Inv_makeMove hinv _ _
      · rw [if_neg h2]
        exact hinv
    · rw [if_neg h1]
      by_cases h3 : gs.mode = GameMode.pvp
      · rw [if_pos h3]
        by_cases h2 : (availableMoves gs.board).length > 0
        · rw [if_pos h2]
          exact Inv_makeMove hinv _ _
        · rw [if_neg h2]
          exact hinv
      · rw [if_neg h3]
        exact hinv
  · rw [if_neg ht]
    exact hinv

/-- Every reachable state satisfies the invariant. -/
theorem Inv_reachable : ∀ {s : GameState}, Reachable s → Inv s := by
  intro s h
  induction h with
  | init => exact Inv_of_empty_board rfl
  | move s i p _ ih => exact Inv_makeMove ih i p
  | tick s t r _ ih => exact Inv_timerTick ih t r
  | reset s _ ih => exact Inv_of_empty_board rfl
  | rescore s _ ih => exact Inv_of_empty_board rfl
  | remode s m _ ih => exact Inv_of_empty_board rfl

/-- C9: on every board reachable by engine transitions from the initial
state, it is never the case that both an all-X winning triple and an all-O
winning triple exist, so the detector can report at most one distinct
winning mark. -/
theorem c9_at_most_one_winner (s : GameState) (h : Reachable s) :
    ¬(hasWin s.board Mark.X = true ∧ hasWin s.board Mark.O = true) :=
  (Inv_reachable h).2

/-- Witness for C9 at the reachable state after X@0. -/
theorem c9_at_most_one_winner_witness :
    ¬(hasWin (makeMove INITIAL_STATE 0 (some Mark.X)).board Mark.X = true ∧
      hasWin (makeMove INITIAL_STATE 0 (some Mark.X)).board Mark.O = true) :=
  c9_at_most_one_winner (makeMove INITIAL_STATE 0 (some Mark.X))
    (Reachable.move INITIAL_STATE 0 (some Mark.X) Reachable.init)

/-- C10: the initial state has an empty 9-cell board, current player X,
status Playing, all score counts zero, and the (undocumented) default mode
PlayerVsAI. -/
theorem c10_initial_defaults :
    INITIAL_STATE.board = List.replicate 9 none
    ∧ (INITIAL_STATE.board.all fun c => c.isNone) = true
    ∧ INITIAL_STATE.currentPlayer = some Mark.X
    ∧ INITIAL_STATE.status = GameStatus.playing
    ∧ INITIAL_STATE.scores = { X := 0, O := 0, draws := 0 }
    ∧ INITIAL_STATE.mode = GameMode.pve := by
  exact ⟨rfl, by decide, rfl, rfl, rfl, rfl⟩

/-- Sanity check kept as a named fact: the row-major scan reports the first
winning combination, here the top row, with its cells in scan order. -/
theorem checkWinner_top_row :
    checkWinner [some Mark.X, some Mark.X, some Mark.X,
      none, some Mark.O, none, none, none, some Mark.O] =
    (some Mark.X, [0, 1, 2]) := by decide

/-- Sanity check kept as a named fact: the block rule from the spec — on
X,X,_,_,O,_,_,_,_ with no immediate O win, the selector blocks at 2. -/
theorem getBestMove_block_example :
    ∀ r, getBestMove r [some Mark.X, some Mark.X, none,
      none, some Mark.O, none, none, none, none] = 2 := by
  intro r
  rfl

end TicTacToe
